import Mathlib

/-!
Verification of the Personal AI Home Agent (`personalai-agent/agent.py`),
a WebSocket bridge that proxies commands from a remote server to a local
Home Assistant HTTP API.

The embedding models Python values as a `Json` inductive, dictionaries as
association lists with Python `dict` semantics, and the aiohttp calls via
an oracle `ApiEnv : ApiRequest → HttpOutcome`; each Local API Client
operation returns its result dictionary together with the list of HTTP
requests it issued, so "no HTTP call is made" is expressible.
-/

/-- A Python/JSON value as manipulated by `agent.py` (`None`, booleans,
integers, strings, lists, dicts).  `obj` keeps insertion order, as CPython
dicts do. -/
inductive Json where
  | null
  | bool (b : Bool)
  | num (n : Int)
  | str (s : String)
  | arr (xs : List Json)
  | obj (kvs : List (String × Json))

/-- A Python dictionary with string keys (insertion-ordered). -/
abbrev PyDict := List (String × Json)

/-- `d.get(k)` on a Python dict: first binding of `k`, if any. -/
def dictGet (d : PyDict) (k : String) : Option Json :=
  List.lookup k d

/-- `d[k] = v` on a Python dict: replace the binding in place if the key
exists, otherwise append it. -/
def dictInsert (d : PyDict) (k : String) (v : Json) : PyDict :=
  if d.any (fun p => p.1 == k) then
    d.map (fun p => if p.1 == k then (k, v) else p)
  else d ++ [(k, v)]

/-- `d.update(e)` on Python dicts: insert the bindings of `e` in order. -/
def dictUpdate (d : PyDict) (e : PyDict) : PyDict :=
  e.foldl (fun acc p => dictInsert acc p.1 p.2) d

/-- The single-quote character, used by Python `repr` of strings and by
the f-string in the domain-not-allowed error message. -/
def pyQuote : String := String.singleton (Char.ofNat 39)

/-- Python `repr()` on the modelled values (containers render their
elements with `repr`, as CPython does). -/
def pyRepr : Json → String
  | Json.null => "None"
  | Json.bool true => "True"
  | Json.bool false => "False"
  | Json.num n => toString n
  | Json.str s => pyQuote ++ s ++ pyQuote
  | Json.arr xs => "[" ++ String.intercalate ", " (xs.attach.map (fun x => pyRepr x.1)) ++ "]"
  | Json.obj kvs =>
      "\x7b" ++ String.intercalate ", "
        (kvs.attach.map (fun p => pyQuote ++ p.1.1 ++ pyQuote ++ ": " ++ pyRepr p.1.2)) ++ "\x7d"
decreasing_by
  · have := List.sizeOf_lt_of_mem x.2
    simp_all; omega
  · have h1 := List.sizeOf_lt_of_mem p.2
    rcases p with ⟨⟨k, v⟩, hp⟩
    simp_all; omega

/-- Python `str()` as applied by an f-string interpolation: strings are
taken verbatim, everything else as `repr`. -/
def pyStr (j : Json) : String :=
  match j with
  | Json.str s => s
  | _ => pyRepr j

/-- Python truthiness of the modelled values (`if entity_id:`). -/
def pyTruthy : Json → Bool
  | Json.null => false
  | Json.bool b => b
  | Json.num n => n != 0
  | Json.str s => s != ""
  | Json.arr xs => !xs.isEmpty
  | Json.obj kvs => !kvs.isEmpty

/-- Python `v == "s"` for an optional value `v` and a string literal:
true exactly when `v` is that very string. -/
def pyEqStr (v : Option Json) (s : String) : Bool :=
  match v with
  | some (Json.str t) => t == s
  | _ => false

/-- The `SAFE_DOMAINS` allow-list of `agent.py`. -/
def SAFE_DOMAINS : List String :=
  ["light", "switch", "climate", "cover", "lock",
   "fan", "media_player", "scene", "vacuum", "input_boolean",
   "alarm_control_panel", "humidifier", "water_heater", "script",
   "automation", "input_select", "input_number", "input_text"]

/-- `command.get("domain") not in SAFE_DOMAINS` is false exactly for a
string value that is in the allow-list (non-strings never compare equal
to the set's string members). -/
def domainAllowed (d : Option Json) : Bool :=
  match d with
  | some (Json.str s) => SAFE_DOMAINS.contains s
  | _ => false

/-- The f-string `f"Domain '\x7bdomain\x7d' not allowed"` rendered on
the raw `command.get("domain")` value (`None` when absent). -/
def domainErrMsg (domain : Option Json) : String :=
  s!"Domain {pyQuote}{pyStr (domain.getD Json.null)}{pyQuote} not allowed"

/-- Whether a value is hashable in Python: `domain not in SAFE_DOMAINS`
hashes `domain` first, so a list or dict value raises TypeError before
any membership decision. -/
def pyHashable : Json → Bool
  | Json.arr _ => false
  | Json.obj _ => false
  | _ => true

/-- `str(e)` of the TypeError raised by hashing an unhashable value. -/
def unhashableMsg : Json → String
  | Json.arr _ => s!"unhashable type: {pyQuote}list{pyQuote}"
  | Json.obj _ => s!"unhashable type: {pyQuote}dict{pyQuote}"
  | _ => ""

/-- One HTTP request issued against the local Home Assistant API.  The
path components record exactly what the f-strings interpolate; the POST
body is the dict passed as `json=`. -/
inductive ApiRequest where
  | getStates
  | getState (entity_id : String)
  | postService (domain : String) (service : String) (body : PyDict)

/-- Outcome of one HTTP call: either a response with a status code and
the value `resp.json()` parses to, or a raised transport exception whose
`str(e)` is the given message. -/
inductive HttpOutcome where
  | resp (status : Nat) (body : Json)
  | exn (msg : String)

/-- The local API as an oracle mapping each request to its outcome. -/
abbrev ApiEnv := ApiRequest → HttpOutcome

/-- The literal failure dictionary `{"success": False, "error": msg}`
built by every error path of the client operations. -/
def resultErr (m : String) : PyDict :=
  [("success", Json.bool false), ("error", Json.str m)]

/-- `"." in entity_id` on a Python string: for this single-character
needle, substring containment is exactly character membership. -/
def hasDot (s : String) : Bool := s.data.contains '.'

/-- One iteration of the `for entity in states` body of
`_get_all_entities`: `none` means the entity was skipped (`continue`),
`some (domain, e)` the appended record, `Except.error` a raised
exception (caught by the surrounding `try`).  Non-dict entities raise at
`entity.get`, non-string ids raise at `"." not in entity_id`, a present
but non-dict `attributes` raises at its `.get`. -/
def parseEntity (j : Json) : Except String (Option (String × PyDict)) :=
  match j with
  | Json.obj kvs =>
    match (dictGet kvs "entity_id").getD (Json.str "") with
    | Json.str eid =>
      if hasDot eid then
        match (dictGet kvs "attributes").getD (Json.obj []) with
        | Json.obj attrs =>
          Except.ok (some ((eid.splitOn ".").headD "",
            [("entity_id", Json.str eid),
             ("state", (dictGet kvs "state").getD Json.null),
             ("name", (dictGet attrs "friendly_name").getD (Json.str eid))]))
        | _ => Except.error "AttributeError"
      else Except.ok none
    | _ => Except.error "TypeError"
  | _ => Except.error "AttributeError"

/-- `entities[domain].append(e)`, creating `entities[domain] = []` first
when the key is new (dict insertion order preserved). -/
def addEntity (groups : List (String × List PyDict)) (domain : String) (e : PyDict) :
    List (String × List PyDict) :=
  if groups.any (fun g => g.1 == domain) then
    groups.map (fun g => if g.1 == domain then (g.1, g.2 ++ [e]) else g)
  else groups ++ [(domain, [e])]

/-- The whole `for entity in states` loop over an already-listed
snapshot, threading the accumulated groups. -/
def parseStates (xs : List Json) (acc : List (String × List PyDict)) :
    Except String (List (String × List PyDict)) :=
  match xs with
  | [] => Except.ok acc
  | j :: rest =>
    match parseEntity j with
    | Except.error m => Except.error m
    | Except.ok none => parseStates rest acc
    | Except.ok (some (d, e)) => parseStates rest (addEntity acc d e)

/-- `for entity in states` over the decoded body, with Python iteration
semantics: a list yields its elements; a dict yields its keys (strings,
so any non-empty dict raises at `entity.get`, while an empty dict
iterates zero times and yields `success: True` with no entities); a
string yields its one-character substrings (the empty string iterates
zero times); `None`, booleans and numbers are not iterable and raise
TypeError at the `for` itself. -/
def parseSnapshot (body : Json) : Except String (List (String × List PyDict)) :=
  match body with
  | Json.arr xs => parseStates xs []
  | Json.obj kvs => parseStates (kvs.map (fun p => Json.str p.1)) []
  | Json.str s => parseStates (s.data.map (fun c => Json.str (String.singleton c))) []
  | _ => Except.error "TypeError"

/-- Render grouped entities back as the `entities` dict of the reply. -/
def groupsToJson (gs : List (String × List PyDict)) : Json :=
  Json.obj (gs.map (fun g => (g.1, Json.arr (g.2.map Json.obj))))

/-- `HomeAgent._get_all_entities`: GET `/api/states`, group the snapshot
by domain prefix; returns the result dict and the requests issued. -/
def get_all_entities (env : ApiEnv) : PyDict × List ApiRequest :=
  match env ApiRequest.getStates with
  | HttpOutcome.exn m => (resultErr m, [ApiRequest.getStates])
  | HttpOutcome.resp status body =>
    if status == 200 then
      match parseSnapshot body with
      | Except.ok gs =>
          ([("success", Json.bool true), ("entities", groupsToJson gs)],
           [ApiRequest.getStates])
      | Except.error m => (resultErr m, [ApiRequest.getStates])
    else (resultErr s!"HA returned {status}", [ApiRequest.getStates])

/-- `HomeAgent._get_entity_state`: GET `/api/states/{entity_id}` where
the path segment is `str(entity_id)` as interpolated by the f-string. -/
def get_entity_state (env : ApiEnv) (entity_id : Json) : PyDict × List ApiRequest :=
  match env (ApiRequest.getState (pyStr entity_id)) with
  | HttpOutcome.exn m => (resultErr m, [ApiRequest.getState (pyStr entity_id)])
  | HttpOutcome.resp status body =>
    if status == 200 then
      ([("success", Json.bool true), ("state", body)],
       [ApiRequest.getState (pyStr entity_id)])
    else (resultErr s!"HA returned {status}", [ApiRequest.getState (pyStr entity_id)])

/-- `service_data.update(data)`: succeeds on a dict; on any non-mapping
value `dict.update` raises (the exact CPython message is immaterial and
modelled by a fixed string), caught by the surrounding `try` before any
HTTP request is made. -/
def pyUpdate (d : PyDict) (data : Json) : Except String PyDict :=
  match data with
  | Json.obj kvs => Except.ok (dictUpdate d kvs)
  | _ => Except.error "TypeError: update expects a mapping"

/-- `HomeAgent._call_service`: build `service_data` (adding `entity_id`
only when truthy, then `update(data)` so data keys win), POST to
`/api/services/{domain}/{service}`. -/
def call_service (env : ApiEnv) (domain : String) (service : Json)
    (entity_id : Json) (data : Json) : PyDict × List ApiRequest :=
  let sd0 : PyDict := if pyTruthy entity_id then [("entity_id", entity_id)] else []
  match pyUpdate sd0 data with
  | Except.error m => (resultErr m, [])
  | Except.ok sd =>
    match env (ApiRequest.postService domain (pyStr service) sd) with
    | HttpOutcome.exn m => (resultErr m, [ApiRequest.postService domain (pyStr service) sd])
    | HttpOutcome.resp status _ =>
      if status == 200 then
        ([("success", Json.bool true),
          ("message", Json.str s!"Called {domain}.{pyStr service}")],
         [ApiRequest.postService domain (pyStr service) sd])
      else (resultErr s!"HA returned {status}",
            [ApiRequest.postService domain (pyStr service) sd])

/-- `HomeAgent._execute_ha_command` on a command dict: route on
`command.get("action")`; the `try`/`except` around the body means the
function always returns a result dict. -/
def execute_ha_command (env : ApiEnv) (command : PyDict) : PyDict × List ApiRequest :=
  let action := dictGet command "action"
  if pyEqStr action "get_entities" then
    get_all_entities env
  else if pyEqStr action "get_state" then
    get_entity_state env ((dictGet command "entity_id").getD Json.null)
  else if pyEqStr action "call_service" then
    if pyHashable ((dictGet command "domain").getD Json.null) then
      if domainAllowed (dictGet command "domain") then
        match dictGet command "domain" with
        | some (Json.str d) =>
            call_service env d ((dictGet command "service").getD Json.null)
              ((dictGet command "entity_id").getD Json.null)
              ((dictGet command "data").getD (Json.obj []))
        | _ => (resultErr (domainErrMsg (dictGet command "domain")), [])
      else
        (resultErr (domainErrMsg (dictGet command "domain")), [])
    else
      (resultErr (unhashableMsg ((dictGet command "domain").getD Json.null)), [])
  else
    (resultErr s!"Unknown action: {pyStr (action.getD Json.null)}", [])

/-- `HomeAgent._handle_message` on a decoded frame: `pong` and unknown
types are ignored; `ha_command` runs the command and sends exactly one
`ha_response` envelope.  The returned list is the sequence of
`send_json` payloads; `Except.error` models an exception escaping the
handler (only `json.JSONDecodeError` is caught by the caller, so such an
exception kills the session).  `data.get` on a non-dict payload and
`command.get` on a non-mapping `command` field both raise. -/
def handle_message (env : ApiEnv) (data : Json) : Except String (List Json) :=
  match data with
  | Json.obj kvs =>
    let msg_type := dictGet kvs "type"
    if pyEqStr msg_type "pong" then Except.ok []
    else if pyEqStr msg_type "ha_command" then
      let request_id := (dictGet kvs "request_id").getD Json.null
      match (dictGet kvs "command").getD (Json.obj []) with
      | Json.obj command =>
        Except.ok [Json.obj
          [("type", Json.str "ha_response"),
           ("request_id", request_id),
           ("result", Json.obj (execute_ha_command env command).1)]]
      | _ => Except.error "AttributeError"
    else Except.ok []
  | _ => Except.error "AttributeError"

/-- The aiohttp WebSocket frame kinds distinguished by `_message_loop`. -/
inductive WSMsgType where
  | TEXT
  | BINARY
  | PING
  | PONG
  | ERROR
  | CLOSE
  | CLOSED

/-- An inbound frame.  For a TEXT frame, `payload` is the result of
`json.loads(msg.data)`: `some` the decoded value, `none` when the text
is not valid JSON (`json.JSONDecodeError`). -/
structure WSFrame where
  type : WSMsgType
  payload : Option Json

/-- `HomeAgent._message_loop` over a finite prefix of the inbound frame
stream: returns the `send_json` payloads emitted, and `some msg` when an
uncaught exception escaped the loop (terminating the session). -/
def message_loop (env : ApiEnv) (frames : List WSFrame) : List Json × Option String :=
  match frames with
  | [] => ([], none)
  | f :: rest =>
    match f.type with
    | WSMsgType.TEXT =>
      match f.payload with
      | some data =>
        match handle_message env data with
        | Except.error e => ([], some e)
        | Except.ok outs =>
          let r := message_loop env rest
          (outs ++ r.1, r.2)
      | none => message_loop env rest
    | WSMsgType.ERROR => ([], none)
    | WSMsgType.CLOSE => ([], none)
    | WSMsgType.CLOSED => ([], none)
    | _ => message_loop env rest

/-- `msg.get("type") == "welcome"` on the single handshake reply:
`none` stands for a timeout / malformed (non-JSON) reply, in which case
`receive_json` raises; a non-dict reply raises at `.get`.  Either
exception is caught by `_connect`'s handler, which returns to the
supervisor without starting the concurrent phase, exactly as the
explicit `return` on a non-welcome type does. -/
def isWelcome (reply : Option Json) : Bool :=
  match reply with
  | some (Json.obj kvs) => pyEqStr (dictGet kvs "type") "welcome"
  | _ => false

/-- The post-handshake part of `HomeAgent._connect`: only when the reply
is a `welcome` does it create the ping task and enter `_message_loop`.
First component: whether the concurrent phase (ping task + dispatch
loop) was entered; the rest is the dispatch loop's outcome. -/
def run_session (env : ApiEnv) (reply : Option Json) (frames : List WSFrame) :
    Bool × List Json × Option String :=
  if isWelcome reply then
    (true, message_loop env frames)
  else
    (false, [], none)

/-- Observable events of `HomeAgent.start`'s reconnection loop. -/
inductive SupEvent where
  | connectAttempt
  | wait (delay : Nat)
  | cleanup

/-- The polled `self._running` flag as read for the `i`-th time by the
loop (reads alternate: `while` test, post-session `if` test, ...).
`stopAt = some s` means `stop()` lands between read `s - 1` and read
`s`, so reads from `s` on see `False`; `none` means stop is never
requested. -/
def isRunning (stopAt : Option Nat) (i : Nat) : Bool :=
  match stopAt with
  | none => true
  | some s => i < s

/-- `HomeAgent.start`'s `while self._running` loop, fuel-bounded: each
unit of fuel is one `while` test.  A session (`_connect`) always
returns to the loop (its exceptions are caught); if still running the
loop sleeps `reconnect_delay` and retries; when the `while` test fails
it falls through to `_cleanup`. -/
def supLoop (delay : Nat) (stopAt : Option Nat) (fuel : Nat) (i : Nat) : List SupEvent :=
  match fuel with
  | 0 => []
  | Nat.succ fuel' =>
    if isRunning stopAt i then
      SupEvent.connectAttempt ::
        (if isRunning stopAt (i + 1) then
          SupEvent.wait delay :: supLoop delay stopAt fuel' (i + 2)
        else supLoop delay stopAt fuel' (i + 2))
    else [SupEvent.cleanup]

/-- Well-formedness of a result dict: a `success` flag, and on failure a
string `error` member — the reply shape the dispatch loop relies on. -/
def goodShape (r : PyDict) : Prop :=
  dictGet r "success" = some (Json.bool true) ∨
  ∃ m, dictGet r "success" = some (Json.bool false) ∧
    dictGet r "error" = some (Json.str m)

/-- A snapshot entry the Home Assistant API actually produces: a dict
whose `entity_id` is a string (or absent, defaulting to `""`) and whose
`attributes`, when present, is a dict. -/
def wfEntity : Json → Bool
  | Json.obj kvs =>
    (match (dictGet kvs "entity_id").getD (Json.str "") with
     | Json.str _ => true
     | _ => false) &&
    (match (dictGet kvs "attributes").getD (Json.obj []) with
     | Json.obj _ => true
     | _ => false)
  | _ => false

/-- A grouped entity record is filed under the text before the first `.`
of its own (dotted) entity id. -/
def goodEntity (d : String) (e : PyDict) : Prop :=
  ∃ eid : String, dictGet e "entity_id" = some (Json.str eid) ∧
    hasDot eid = true ∧ (eid.splitOn ".").headD "" = d

/-- Every record of every group satisfies `goodEntity` for its group's
domain key. -/
def goodGroups (gs : List (String × List PyDict)) : Prop :=
  ∀ g ∈ gs, ∀ e ∈ g.2, goodEntity g.1 e

/-- An oracle on which every HTTP call raises a transport exception. -/
def envExn : ApiEnv := fun _ => HttpOutcome.exn "boom"

/-- The spec scenario command: `call_service` on the disallowed domain
`camera`. -/
def cmdCamera : PyDict :=
  [("action", Json.str "call_service"), ("domain", Json.str "camera"),
   ("service", Json.str "snapshot")]

/-- A `call_service` command on the allowed domain `light`. -/
def cmdLight : PyDict :=
  [("action", Json.str "call_service"), ("domain", Json.str "light"),
   ("service", Json.str "turn_on")]

/-- A `call_service` command whose `domain` value is the unhashable
empty list. -/
def cmdListDomain : PyDict :=
  [("action", Json.str "call_service"), ("domain", Json.arr []),
   ("service", Json.str "snapshot")]

/-- A well-formed `ha_command` text frame (empty command dict). -/
def haCommandFrame : WSFrame :=
  WSFrame.mk WSMsgType.TEXT (some (Json.obj
    [("type", Json.str "ha_command"), ("request_id", Json.str "r1"),
     ("command", Json.obj [])]))

/-- The `ha_response` sent for `haCommandFrame` (no local API contact:
the empty command has no action, so the reply is env-independent). -/
def unknownActionResponse : Json :=
  Json.obj [("type", Json.str "ha_response"), ("request_id", Json.str "r1"),
            ("result", Json.obj (resultErr "Unknown action: None"))]

/-- A small well-formed snapshot: one dotted id with a friendly name,
one separator-less id, one dotted id without attributes. -/
def snapshotExample : List Json :=
  [Json.obj [("entity_id", Json.str "light.kitchen"), ("state", Json.str "on"),
             ("attributes", Json.obj [("friendly_name", Json.str "Kitchen")])],
   Json.obj [("entity_id", Json.str "sensorNoDot")],
   Json.obj [("entity_id", Json.str "light.bed")]]

/-- An oracle serving `snapshotExample` with HTTP 200 on every call. -/
def envSnapshot : ApiEnv := fun _ => HttpOutcome.resp 200 (Json.arr snapshotExample)

theorem pyEqStr_eq_true_iff (v : Option Json) (s : String) :
    pyEqStr v s = true ↔ v = some (Json.str s) := by
  cases v with
  | none => simp [pyEqStr]
  | some j =>
    cases j <;> simp [pyEqStr]

theorem goodShape_resultErr (m : String) : goodShape (resultErr m) :=
  Or.inr ⟨m, rfl, rfl⟩

theorem goodShape_get_all_entities (env : ApiEnv) :
    goodShape (get_all_entities env).1 := by
  unfold get_all_entities
  cases env ApiRequest.getStates with
  | exn m => exact goodShape_resultErr m
  | resp status body =>
    by_cases hs : (status == 200) = true
    · simp only [hs, if_true]
      cases hp : parseSnapshot body with
      | ok gs => simp only [hp]; exact Or.inl rfl
      | error m => simp only [hp]; exact goodShape_resultErr m
    · simp only [hs, if_false]
      exact goodShape_resultErr _

theorem goodShape_get_entity_state (env : ApiEnv) (eid : Json) :
    goodShape (get_entity_state env eid).1 := by
  unfold get_entity_state
  cases env (ApiRequest.getState (pyStr eid)) with
  | exn m => exact goodShape_resultErr m
  | resp status body =>
    by_cases hs : (status == 200) = true
    · simp only [hs, if_true]; exact Or.inl rfl
    · simp only [hs, if_false]; exact goodShape_resultErr _

theorem goodShape_call_service (env : ApiEnv) (domain : String)
    (service entity_id data : Json) :
    goodShape (call_service env domain service entity_id data).1 := by
  unfold call_service
  dsimp only
  cases hu : pyUpdate (if pyTruthy entity_id then [("entity_id", entity_id)] else []) data with
  | error m => simp only [hu]; exact goodShape_resultErr m
  | ok sd =>
    simp only [hu]
    cases hr : env (ApiRequest.postService domain (pyStr service) sd) with
    | exn m => simp only [hr]; exact goodShape_resultErr m
    | resp status body =>
      simp only [hr]
      by_cases hs : (status == 200) = true
      · simp only [hs, if_true]; exact Or.inl rfl
      · simp only [hs, if_false]; exact goodShape_resultErr _

theorem dictGet_resultErr_error (m : String) :
    dictGet (resultErr m) "error" = some (Json.str m) := rfl

/-- C1 counterexample: at the unhashable domain value `[]` the set test
`domain not in SAFE_DOMAINS` raises TypeError, which the handler turns
into `{success: False, error: "unhashable type: ..."}` — not the
`"Domain ... not allowed"` reply the claim asserts for every domain
outside the allow-list (the request trace is still empty). -/
theorem claim_C1_counterexample :
    execute_ha_command envExn cmdListDomain =
      (resultErr (unhashableMsg (Json.arr [])), [])
    ∧ execute_ha_command envExn cmdListDomain ≠
      (resultErr (domainErrMsg (dictGet cmdListDomain "domain")), []) := by
  constructor
  · rfl
  · intro h
    have he : execute_ha_command envExn cmdListDomain =
        (resultErr (unhashableMsg (Json.arr [])), []) := rfl
    rw [he] at h
    have hd : domainErrMsg (dictGet cmdListDomain "domain") =
        "Domain " ++ pyQuote ++ "[]" ++ pyQuote ++ " not allowed" := by
      simp [domainErrMsg, dictGet, List.lookup, pyStr, pyRepr, pyQuote, cmdListDomain]
      rfl
    rw [hd] at h
    have h2 := congrArg (fun p => dictGet p.1 "error") h
    simp only [dictGet_resultErr_error] at h2
    injection h2 with h3
    injection h3 with h4
    exact absurd h4 (by decide)

/-- C1 (amended): for a `call_service` command whose `domain` value is
hashable and not in the `SAFE_DOMAINS` allow-list,
`_execute_ha_command` returns
`{success: False, error: "Domain ... not allowed"}` with an empty
request trace (the local API is never contacted); an unhashable
`domain` (list or dict) instead yields the caught TypeError text,
likewise with an empty request trace; for an allowed domain it
delegates to `_call_service` with the command's service, entity_id and
data fields. -/
theorem claim_C1_call_service_policy :
    (∀ (env : ApiEnv) (command : PyDict),
      dictGet command "action" = some (Json.str "call_service") →
      pyHashable ((dictGet command "domain").getD Json.null) = true →
      domainAllowed (dictGet command "domain") = false →
      execute_ha_command env command =
        (resultErr (domainErrMsg (dictGet command "domain")), []))
    ∧ (∀ (env : ApiEnv) (command : PyDict),
      dictGet command "action" = some (Json.str "call_service") →
      pyHashable ((dictGet command "domain").getD Json.null) = false →
      execute_ha_command env command =
        (resultErr (unhashableMsg ((dictGet command "domain").getD Json.null)), []))
    ∧ (∀ (env : ApiEnv) (command : PyDict) (d : String),
      dictGet command "action" = some (Json.str "call_service") →
      dictGet command "domain" = some (Json.str d) →
      SAFE_DOMAINS.contains d = true →
      execute_ha_command env command =
        call_service env d ((dictGet command "service").getD Json.null)
          ((dictGet command "entity_id").getD Json.null)
          ((dictGet command "data").getD (Json.obj []))) := by
  refine ⟨?_, ?_, ?_⟩
  · intro env command h1 hh h2
    have e1 : pyEqStr (dictGet command "action") "get_entities" = false := by
      rw [h1]; decide
    have e2 : pyEqStr (dictGet command "action") "get_state" = false := by
      rw [h1]; decide
    have e3 : pyEqStr (dictGet command "action") "call_service" = true := by
      rw [h1]; decide
    simp only [execute_ha_command, e1, e2, e3, hh, h2, Bool.false_eq_true, if_false, if_true]
  · intro env command h1 hh
    have e1 : pyEqStr (dictGet command "action") "get_entities" = false := by
      rw [h1]; decide
    have e2 : pyEqStr (dictGet command "action") "get_state" = false := by
      rw [h1]; decide
    have e3 : pyEqStr (dictGet command "action") "call_service" = true := by
      rw [h1]; decide
    simp only [execute_ha_command, e1, e2, e3, hh, Bool.false_eq_true, if_false, if_true]
  · intro env command d h1 hd hsafe
    have e1 : pyEqStr (dictGet command "action") "get_entities" = false := by
      rw [h1]; decide
    have e2 : pyEqStr (dictGet command "action") "get_state" = false := by
      rw [h1]; decide
    have e3 : pyEqStr (dictGet command "action") "call_service" = true := by
      rw [h1]; decide
    have hall : domainAllowed (some (Json.str d)) = true := hsafe
    have hh : pyHashable ((some (Json.str d)).getD Json.null) = true := rfl
    simp only [execute_ha_command, e1, e2, e3, hd, hall, hh, Bool.false_eq_true, if_false,
      if_true]

/-- C1 witness: the spec scenario — `call_service` on domain `camera`
yields the policy error with zero requests, on the unhashable `[]` the
TypeError text with zero requests, while domain `light` delegates to
`_call_service`. -/
theorem claim_C1_call_service_policy_witness :
    execute_ha_command envExn cmdCamera =
      (resultErr ("Domain " ++ pyQuote ++ "camera" ++ pyQuote ++ " not allowed"), [])
    ∧ execute_ha_command envExn cmdListDomain =
      (resultErr ("unhashable type: " ++ pyQuote ++ "list" ++ pyQuote), [])
    ∧ execute_ha_command envExn cmdLight =
      call_service envExn "light" (Json.str "turn_on") Json.null (Json.obj []) := by
  refine ⟨?_, ?_, ?_⟩
  · have h := claim_C1_call_service_policy.1 envExn cmdCamera rfl rfl (by decide)
    simpa using h
  · have h := claim_C1_call_service_policy.2.1 envExn cmdListDomain rfl rfl
    simpa [unhashableMsg, dictGet, List.lookup, cmdListDomain] using h
  · have h := claim_C1_call_service_policy.2.2 envExn cmdLight "light" rfl rfl (by decide)
    simpa using h

/-- C3: `_execute_ha_command` is total — every branch, including every
local-API failure, yields a dict with a boolean `success` flag and, on
failure, a string `error` member — and an action other than
`get_entities`/`get_state`/`call_service` yields
`{success: False, error: "Unknown action: <action>"}` with no request. -/
theorem claim_C3_execute_never_raises :
    (∀ (env : ApiEnv) (command : PyDict),
      goodShape (execute_ha_command env command).1)
    ∧ (∀ (env : ApiEnv) (command : PyDict) (a : String),
      dictGet command "action" = some (Json.str a) →
      a ≠ "get_entities" → a ≠ "get_state" → a ≠ "call_service" →
      execute_ha_command env command = (resultErr s!"Unknown action: {a}", [])) := by
  constructor
  · intro env command
    unfold execute_ha_command
    dsimp only
    by_cases h1 : pyEqStr (dictGet command "action") "get_entities" = true
    · simp only [h1, if_true]
      exact goodShape_get_all_entities env
    · simp only [h1, Bool.false_eq_true, if_false]
      by_cases h2 : pyEqStr (dictGet command "action") "get_state" = true
      · simp only [h2, if_true]
        exact goodShape_get_entity_state env _
      · simp only [h2, Bool.false_eq_true, if_false]
        by_cases h3 : pyEqStr (dictGet command "action") "call_service" = true
        · simp only [h3, if_true]
          by_cases hh : pyHashable ((dictGet command "domain").getD Json.null) = true
          · simp only [hh, if_true]
            by_cases h4 : domainAllowed (dictGet command "domain") = true
            · simp only [h4, if_true]
              cases hd : dictGet command "domain" with
              | none => simp only [hd]; exact goodShape_resultErr _
              | some j =>
                cases j <;> simp only [hd] <;>
                  first
                    | exact goodShape_call_service env _ _ _ _
                    | exact goodShape_resultErr _
            · simp only [h4, Bool.false_eq_true, if_false]
              exact goodShape_resultErr _
          · simp only [hh, Bool.false_eq_true, if_false]
            exact goodShape_resultErr _
        · simp only [h3, Bool.false_eq_true, if_false]
          exact goodShape_resultErr _
  · intro env command a ha n1 n2 n3
    have e1 : pyEqStr (dictGet command "action") "get_entities" = false := by
      rw [ha]; simpa [pyEqStr] using n1
    have e2 : pyEqStr (dictGet command "action") "get_state" = false := by
      rw [ha]; simpa [pyEqStr] using n2
    have e3 : pyEqStr (dictGet command "action") "call_service" = false := by
      rw [ha]; simpa [pyEqStr] using n3
    simp only [execute_ha_command, e1, e2, e3, Bool.false_eq_true, if_false]
    rw [ha]
    rfl

/-- C3 witness: the shape property at a concrete failing oracle and the
unknown-action reply for action `bogus`. -/
theorem claim_C3_execute_never_raises_witness :
    goodShape (execute_ha_command envExn cmdCamera).1
    ∧ execute_ha_command envExn [("action", Json.str "bogus")] =
        (resultErr "Unknown action: bogus", []) := by
  constructor
  · exact claim_C3_execute_never_raises.1 envExn cmdCamera
  · have h := claim_C3_execute_never_raises.2 envExn [("action", Json.str "bogus")]
      "bogus" rfl (by decide) (by decide) (by decide)
    simpa using h

/-- C2 counterexample: an inbound `ha_command` envelope whose `command`
field is the non-mapping `"x"` makes `_handle_message` raise
`AttributeError` at `command.get('action', 'unknown')` before any
`send_json` — so zero `ha_response` envelopes are sent for this
`ha_command`, refuting "exactly one `ha_response` per `ha_command`". -/
theorem claim_C2_counterexample :
    handle_message envExn (Json.obj
      [("type", Json.str "ha_command"), ("request_id", Json.str "r1"),
       ("command", Json.str "x")]) = Except.error "AttributeError" := rfl

/-- C2 (amended): for every `ha_command` envelope whose `command` field
is absent or a mapping, `_handle_message` sends exactly one outbound
envelope, of type `ha_response`, whose `request_id` field is the
inbound `request_id` value verbatim (`null` when absent, and any
non-string value unchanged). -/
theorem claim_C2_response_correlation :
    ∀ (env : ApiEnv) (kvs : PyDict) (command : PyDict),
      dictGet kvs "type" = some (Json.str "ha_command") →
      (dictGet kvs "command").getD (Json.obj []) = Json.obj command →
      handle_message env (Json.obj kvs) =
        Except.ok [Json.obj
          [("type", Json.str "ha_response"),
           ("request_id", (dictGet kvs "request_id").getD Json.null),
           ("result", Json.obj (execute_ha_command env command).1)]] := by
  intro env kvs command ht hc
  have e1 : pyEqStr (dictGet kvs "type") "pong" = false := by
    rw [ht]; decide
  have e2 : pyEqStr (dictGet kvs "type") "ha_command" = true := by
    rw [ht]; decide
  simp only [handle_message, e1, e2, Bool.false_eq_true, if_false, if_true, hc]

/-- C2 witness: a `ha_command` with an absent `command` field (treated
as the empty dict) and a non-string `request_id` of `7`, echoed
verbatim in the single reply. -/
theorem claim_C2_response_correlation_witness :
    handle_message envExn (Json.obj
      [("type", Json.str "ha_command"), ("request_id", Json.num 7)]) =
      Except.ok [Json.obj
        [("type", Json.str "ha_response"),
         ("request_id", Json.num 7),
         ("result", Json.obj (resultErr "Unknown action: None"))]] := by
  have h := claim_C2_response_correlation envExn
    [("type", Json.str "ha_command"), ("request_id", Json.num 7)] [] rfl rfl
  simpa [dictGet, execute_ha_command, pyEqStr, pyStr, pyRepr, resultErr] using h

theorem parseEntity_of_wf (j : Json) (h : wfEntity j = true) :
    ∃ r, parseEntity j = Except.ok r ∧
      ∀ d e, r = some (d, e) → goodEntity d e := by
  cases j with
  | obj kvs =>
    simp only [wfEntity, Bool.and_eq_true] at h
    obtain ⟨h1, h2⟩ := h
    cases he : (dictGet kvs "entity_id").getD (Json.str "") with
    | str eid =>
      by_cases hdot : hasDot eid = true
      · cases ha : (dictGet kvs "attributes").getD (Json.obj []) with
        | obj attrs =>
          refine ⟨some ((eid.splitOn ".").headD "",
            [("entity_id", Json.str eid),
             ("state", (dictGet kvs "state").getD Json.null),
             ("name", (dictGet attrs "friendly_name").getD (Json.str eid))]), ?_, ?_⟩
          · simp only [parseEntity, he, ha, hdot, if_true]
          · intro d e hr
            injection hr with hr
            cases hr
            exact ⟨eid, rfl, hdot, rfl⟩
        | null => rw [ha] at h2; simp at h2
        | bool b => rw [ha] at h2; simp at h2
        | num n => rw [ha] at h2; simp at h2
        | str s => rw [ha] at h2; simp at h2
        | arr xs => rw [ha] at h2; simp at h2
      · refine ⟨none, ?_, by intro d e hr; cases hr⟩
        simp only [parseEntity, he, hdot, Bool.false_eq_true, if_false]
    | null => rw [he] at h1; simp at h1
    | bool b => rw [he] at h1; simp at h1
    | num n => rw [he] at h1; simp at h1
    | arr xs => rw [he] at h1; simp at h1
    | obj kvs2 => rw [he] at h1; simp at h1
  | null => simp [wfEntity] at h
  | bool b => simp [wfEntity] at h
  | num n => simp [wfEntity] at h
  | str s => simp [wfEntity] at h
  | arr xs => simp [wfEntity] at h

theorem goodGroups_nil : goodGroups [] := by
  intro g hg
  cases hg

theorem goodGroups_addEntity (gs : List (String × List PyDict)) (d : String)
    (e : PyDict) (hg : goodGroups gs) (he : goodEntity d e) :
    goodGroups (addEntity gs d e) := by
  unfold addEntity
  split
  · intro g hmem e' he'
    obtain ⟨g0, hg0, rfl⟩ := List.mem_map.mp hmem
    by_cases hk : (g0.1 == d) = true
    · simp only [hk, if_true] at he' ⊢
      rcases List.mem_append.mp he' with h' | h'
      · have := hg g0 hg0 e' h'
        simpa using this
      · simp only [List.mem_singleton] at h'
        subst h'
        have : g0.1 = d := by simpa using hk
        simpa [this] using he
    · simp only [hk, Bool.false_eq_true, if_false] at he' ⊢
      exact hg g0 hg0 e' he'
  · intro g hmem e' he'
    rcases List.mem_append.mp hmem with h' | h'
    · exact hg g h' e' he'
    · simp only [List.mem_singleton] at h'
      subst h'
      simp only [List.mem_singleton] at he'
      subst he'
      exact he

theorem parseStates_wf (xs : List Json) :
    ∀ acc, (∀ j ∈ xs, wfEntity j = true) → goodGroups acc →
      ∃ gs, parseStates xs acc = Except.ok gs ∧ goodGroups gs := by
  induction xs with
  | nil => intro acc _ hacc; exact ⟨acc, rfl, hacc⟩
  | cons j rest ih =>
    intro acc hwf hacc
    obtain ⟨r, hr, hgood⟩ := parseEntity_of_wf j (hwf j (List.mem_cons_self j rest))
    have hwf' : ∀ j' ∈ rest, wfEntity j' = true :=
      fun j' hj' => hwf j' (List.mem_cons_of_mem j hj')
    cases r with
    | none =>
      have : parseStates (j :: rest) acc = parseStates rest acc := by
        simp only [parseStates, hr]
      rw [this]
      exact ih acc hwf' hacc
    | some p =>
      obtain ⟨d, e⟩ := p
      have : parseStates (j :: rest) acc = parseStates rest (addEntity acc d e) := by
        simp only [parseStates, hr]
      rw [this]
      exact ih (addEntity acc d e) hwf' (goodGroups_addEntity acc d e hacc (hgood d e rfl))

/-- C4: on a well-formed 200 snapshot, `_get_all_entities` succeeds and
every returned entity is filed under the text before the first `.` of
its own id (so ids without a `.` appear in no group); a dotted entity's
record carries `name` = its `friendly_name` attribute when present,
otherwise its entity id; an id without a `.` is skipped without
raising. -/
theorem claim_C4_entity_grouping :
    (∀ (env : ApiEnv) (xs : List Json),
      env ApiRequest.getStates = HttpOutcome.resp 200 (Json.arr xs) →
      (∀ j ∈ xs, wfEntity j = true) →
      ∃ gs, get_all_entities env =
          ([("success", Json.bool true), ("entities", groupsToJson gs)],
           [ApiRequest.getStates])
        ∧ goodGroups gs)
    ∧ (∀ (kvs : PyDict) (eid : String) (attrs : PyDict),
      (dictGet kvs "entity_id").getD (Json.str "") = Json.str eid →
      (dictGet kvs "attributes").getD (Json.obj []) = Json.obj attrs →
      hasDot eid = true →
      parseEntity (Json.obj kvs) = Except.ok (some ((eid.splitOn ".").headD "",
        [("entity_id", Json.str eid),
         ("state", (dictGet kvs "state").getD Json.null),
         ("name", (dictGet attrs "friendly_name").getD (Json.str eid))])))
    ∧ (∀ (kvs : PyDict) (eid : String),
      (dictGet kvs "entity_id").getD (Json.str "") = Json.str eid →
      hasDot eid = false →
      parseEntity (Json.obj kvs) = Except.ok none) := by
  refine ⟨?_, ?_, ?_⟩
  · intro env xs henv hwf
    obtain ⟨gs, hgs, hgood⟩ := parseStates_wf xs [] hwf goodGroups_nil
    refine ⟨gs, ?_, hgood⟩
    unfold get_all_entities
    rw [henv]
    simp only [parseSnapshot, hgs]
    rfl
  · intro kvs eid attrs h1 h2 h3
    simp only [parseEntity, h1, h2, h3, if_true]
  · intro kvs eid h1 h2
    simp only [parseEntity, h1, h2, Bool.false_eq_true, if_false]

/-- C4 witness: the three-entry example snapshot (dotted id with
friendly name, separator-less id, dotted id without attributes). -/
theorem claim_C4_entity_grouping_witness :
    (∃ gs, get_all_entities envSnapshot =
        ([("success", Json.bool true), ("entities", groupsToJson gs)],
         [ApiRequest.getStates])
      ∧ goodGroups gs)
    ∧ parseEntity (Json.obj [("entity_id", Json.str "sensorNoDot")]) =
        Except.ok none := by
  constructor
  · exact claim_C4_entity_grouping.1 envSnapshot snapshotExample rfl (by decide)
  · exact claim_C4_entity_grouping.2.2 [("entity_id", Json.str "sensorNoDot")]
      "sensorNoDot" rfl (by decide)

/-- C6 counterexample: a BINARY frame is a non-text frame, yet the
dispatch loop does not terminate there — the following `ha_command`
text frame is still dispatched and its response sent, refuting "a
non-text frame terminates the phase". -/
theorem claim_C6_counterexample :
    message_loop envExn [WSFrame.mk WSMsgType.BINARY none, haCommandFrame] =
      ([unknownActionResponse], none) := by
  simp +decide [message_loop, handle_message, execute_ha_command, envExn, haCommandFrame,
        unknownActionResponse, resultErr, dictGet, List.lookup, pyEqStr, pyStr, pyRepr]

/-- C6 (amended): an ERROR, CLOSE or CLOSED frame terminates the
dispatch loop (nothing after it is processed and nothing is sent for
it); BINARY, PING and PONG frames are skipped, the loop continuing with
the rest of the stream; only TEXT frames are ever dispatched to
`_handle_message`. -/
theorem claim_C6_loop_termination :
    (∀ (env : ApiEnv) (f : WSFrame) (rest : List WSFrame),
      f.type = WSMsgType.ERROR ∨ f.type = WSMsgType.CLOSE ∨ f.type = WSMsgType.CLOSED →
      message_loop env (f :: rest) = ([], none))
    ∧ (∀ (env : ApiEnv) (f : WSFrame) (rest : List WSFrame),
      f.type = WSMsgType.BINARY ∨ f.type = WSMsgType.PING ∨ f.type = WSMsgType.PONG →
      message_loop env (f :: rest) = message_loop env rest) := by
  constructor
  · intro env f rest h
    obtain ⟨t, p⟩ := f
    rcases h with h | h | h <;> subst h <;> rfl
  · intro env f rest h
    obtain ⟨t, p⟩ := f
    rcases h with h | h | h <;> subst h <;> rfl

/-- C6 witness: a CLOSE frame terminates the loop even with a pending
command frame behind it; a PING frame is skipped. -/
theorem claim_C6_loop_termination_witness :
    message_loop envExn [WSFrame.mk WSMsgType.CLOSE none, haCommandFrame] = ([], none)
    ∧ message_loop envExn [WSFrame.mk WSMsgType.PING none, haCommandFrame] =
        message_loop envExn [haCommandFrame] := by
  constructor
  · exact claim_C6_loop_termination.1 envExn (WSFrame.mk WSMsgType.CLOSE none)
      [haCommandFrame] (Or.inr (Or.inl rfl))
  · exact claim_C6_loop_termination.2 envExn (WSFrame.mk WSMsgType.PING none)
      [haCommandFrame] (Or.inr (Or.inl rfl))

/-- C7: when the single handshake reply is not a `welcome` dict —
different `type`, non-dict payload, or missing/failed reply — the
session neither starts the ping task nor enters the dispatch loop and
sends nothing; conversely a `welcome` reply enters the concurrent
phase. -/
theorem claim_C7_handshake_gate :
    (∀ (env : ApiEnv) (reply : Option Json) (frames : List WSFrame),
      isWelcome reply = false →
      run_session env reply frames = (false, [], none))
    ∧ (∀ (env : ApiEnv) (reply : Option Json) (frames : List WSFrame),
      isWelcome reply = true →
      run_session env reply frames = (true, message_loop env frames)) := by
  constructor
  · intro env reply frames h
    unfold run_session
    rw [h]
    rfl
  · intro env reply frames h
    unfold run_session
    rw [h]
    rfl

/-- C7 witness: a reply of type `error` never enters the concurrent
phase, even with a command frame waiting. -/
theorem claim_C7_handshake_gate_witness :
    run_session envExn (some (Json.obj [("type", Json.str "error")]))
      [haCommandFrame] = (false, [], none) := by
  exact claim_C7_handshake_gate.1 envExn
    (some (Json.obj [("type", Json.str "error")])) [haCommandFrame] (by decide)

/-- C8: a TEXT frame whose payload is not valid JSON
(`json.JSONDecodeError`, modelled as `payload = none`) is silently
dropped: the loop's behaviour on the remaining frames is unchanged, and
in particular a later well-formed `ha_command` frame still produces its
response. -/
theorem claim_C8_malformed_frame_dropped :
    (∀ (env : ApiEnv) (rest : List WSFrame),
      message_loop env (WSFrame.mk WSMsgType.TEXT none :: rest) =
        message_loop env rest)
    ∧ message_loop envExn [WSFrame.mk WSMsgType.TEXT none, haCommandFrame] =
        ([unknownActionResponse], none) := by
  constructor
  · intro env rest
    rfl
  · simp +decide [message_loop, handle_message, execute_ha_command, envExn, haCommandFrame,
          unknownActionResponse, resultErr, dictGet, List.lookup, pyEqStr, pyStr, pyRepr]

theorem supLoop_none (delay : Nat) : ∀ (fuel i : Nat),
    supLoop delay none fuel i =
      List.join (List.replicate fuel [SupEvent.connectAttempt, SupEvent.wait delay]) := by
  intro fuel
  induction fuel with
  | zero => intro i; rfl
  | succ n ih =>
    intro i
    have hstep : supLoop delay none (n + 1) i =
        SupEvent.connectAttempt :: SupEvent.wait delay :: supLoop delay none n (i + 2) := rfl
    rw [hstep, ih (i + 2)]
    simp [List.replicate_succ]

theorem supLoop_stop_in_session (delay : Nat) : ∀ (k fuel i : Nat), k + 2 ≤ fuel →
    supLoop delay (some (i + 2 * k + 1)) fuel i =
      List.join (List.replicate k [SupEvent.connectAttempt, SupEvent.wait delay]) ++
        [SupEvent.connectAttempt, SupEvent.cleanup] := by
  intro k
  induction k with
  | zero =>
    intro fuel i h
    match fuel, h with
    | Nat.succ (Nat.succ f), _ =>
      have h1 : isRunning (some (i + 2 * 0 + 1)) i = true := by
        simp only [isRunning, decide_eq_true_eq]; omega
      have h2 : isRunning (some (i + 2 * 0 + 1)) (i + 1) = false := by
        simp only [isRunning, decide_eq_false_iff_not]; omega
      have h3 : isRunning (some (i + 2 * 0 + 1)) (i + 2) = false := by
        simp only [isRunning, decide_eq_false_iff_not]; omega
      simp only [supLoop, h1, h2, h3, if_true, Bool.false_eq_true, if_false]
      simp
  | succ k ih =>
    intro fuel i h
    match fuel, h with
    | Nat.succ f, h =>
      have hf : k + 2 ≤ f := by omega
      have h1 : isRunning (some (i + 2 * (k + 1) + 1)) i = true := by
        simp only [isRunning, decide_eq_true_eq]; omega
      have h2 : isRunning (some (i + 2 * (k + 1) + 1)) (i + 1) = true := by
        simp only [isRunning, decide_eq_true_eq]; omega
      have heq : i + 2 * (k + 1) + 1 = (i + 2) + 2 * k + 1 := by omega
      have hstep : supLoop delay (some (i + 2 * (k + 1) + 1)) (f + 1) i =
          SupEvent.connectAttempt :: SupEvent.wait delay ::
            supLoop delay (some ((i + 2) + 2 * k + 1)) f (i + 2) := by
        simp only [supLoop, h1, h2, if_true]
        rw [heq]
      rw [hstep, ih f (i + 2) hf]
      simp [List.replicate_succ]

theorem supLoop_stop_in_wait (delay : Nat) : ∀ (k fuel i : Nat), k + 2 ≤ fuel →
    supLoop delay (some (i + 2 * k + 2)) fuel i =
      List.join (List.replicate (k + 1) [SupEvent.connectAttempt, SupEvent.wait delay]) ++
        [SupEvent.cleanup] := by
  intro k
  induction k with
  | zero =>
    intro fuel i h
    match fuel, h with
    | Nat.succ (Nat.succ f), _ =>
      have h1 : isRunning (some (i + 2 * 0 + 2)) i = true := by
        simp only [isRunning, decide_eq_true_eq]; omega
      have h2 : isRunning (some (i + 2 * 0 + 2)) (i + 1) = true := by
        simp only [isRunning, decide_eq_true_eq]; omega
      have h3 : isRunning (some (i + 2 * 0 + 2)) (i + 2) = false := by
        simp only [isRunning, decide_eq_false_iff_not]; omega
      simp only [supLoop, h1, h2, h3, if_true, Bool.false_eq_true, if_false]
      simp
  | succ k ih =>
    intro fuel i h
    match fuel, h with
    | Nat.succ f, h =>
      have hf : k + 2 ≤ f := by omega
      have h1 : isRunning (some (i + 2 * (k + 1) + 2)) i = true := by
        simp only [isRunning, decide_eq_true_eq]; omega
      have h2 : isRunning (some (i + 2 * (k + 1) + 2)) (i + 1) = true := by
        simp only [isRunning, decide_eq_true_eq]; omega
      have heq : i + 2 * (k + 1) + 2 = (i + 2) + 2 * k + 2 := by omega
      have hstep : supLoop delay (some (i + 2 * (k + 1) + 2)) (f + 1) i =
          SupEvent.connectAttempt :: SupEvent.wait delay ::
            supLoop delay (some ((i + 2) + 2 * k + 2)) f (i + 2) := by
        simp only [supLoop, h1, h2, if_true]
        rw [heq]
      rw [hstep, ih f (i + 2) hf]
      simp [List.replicate_succ]

/-- C9: as long as stop is never requested, every `while` pass of
`HomeAgent.start` is one connection attempt followed by exactly one
fixed-delay wait, indefinitely; when stop lands during the `k+1`-th
session, the trace is `k` attempt/wait pairs, one final attempt, then
cleanup with no further wait or attempt; when stop lands during a wait,
the wait completes and cleanup follows with no further attempt. -/
theorem claim_C9_supervisor_reconnect :
    (∀ (delay fuel i : Nat),
      supLoop delay none fuel i =
        List.join (List.replicate fuel [SupEvent.connectAttempt, SupEvent.wait delay]))
    ∧ (∀ (delay k fuel i : Nat), k + 2 ≤ fuel →
      supLoop delay (some (i + 2 * k + 1)) fuel i =
        List.join (List.replicate k [SupEvent.connectAttempt, SupEvent.wait delay]) ++
          [SupEvent.connectAttempt, SupEvent.cleanup])
    ∧ (∀ (delay k fuel i : Nat), k + 2 ≤ fuel →
      supLoop delay (some (i + 2 * k + 2)) fuel i =
        List.join (List.replicate (k + 1) [SupEvent.connectAttempt, SupEvent.wait delay]) ++
          [SupEvent.cleanup]) :=
  ⟨fun delay fuel i => supLoop_none delay fuel i,
   fun delay k fuel i h => supLoop_stop_in_session delay k fuel i h,
   fun delay k fuel i h => supLoop_stop_in_wait delay k fuel i h⟩

/-- C9 witness: delay 5 — stop during the second session gives
attempt, wait 5, attempt, cleanup; stop during the second wait gives
attempt, wait 5, attempt, wait 5, cleanup. -/
theorem claim_C9_supervisor_reconnect_witness :
    supLoop 5 (some 3) 3 0 =
      [SupEvent.connectAttempt, SupEvent.wait 5, SupEvent.connectAttempt, SupEvent.cleanup]
    ∧ supLoop 5 (some 4) 4 0 =
      [SupEvent.connectAttempt, SupEvent.wait 5, SupEvent.connectAttempt, SupEvent.wait 5,
       SupEvent.cleanup] := by
  constructor
  · have h := claim_C9_supervisor_reconnect.2.1 5 1 3 0 (by decide)
    simpa using h
  · have h := claim_C9_supervisor_reconnect.2.2 5 1 4 0 (by decide)
    simpa using h

theorem lookup_replaceKey (d : PyDict) (kr : String) (v : Json) (k : String)
    (h : (k == kr) = false) :
    List.lookup k (d.map (fun p => if p.1 == kr then (kr, v) else p)) =
      List.lookup k d := by
  induction d with
  | nil => rfl
  | cons a d ih =>
    simp only [List.map_cons]
    by_cases ha : (a.1 == kr) = true
    · have ha' : a.1 = kr := by simpa using ha
      rw [if_pos ha]
      simp only [List.lookup, ha', h]
      exact ih
    · rw [if_neg ha]
      simp only [List.lookup]
      cases hk : (k == a.1) with
      | true => simp only [hk]
      | false => simp only [hk]; exact ih

theorem lookup_replaceKey_self (d : PyDict) (kr : String) (v : Json)
    (hmem : d.any (fun p => p.1 == kr) = true) :
    List.lookup kr (d.map (fun p => if p.1 == kr then (kr, v) else p)) = some v := by
  induction d with
  | nil => simp at hmem
  | cons a d ih =>
    simp only [List.map_cons]
    by_cases ha : (a.1 == kr) = true
    · rw [if_pos ha]
      simp [List.lookup]
    · rw [if_neg ha]
      have ha' : (a.1 == kr) = false := by simpa using ha
      have ha'' : (kr == a.1) = false := by
        simp only [beq_eq_false_iff_ne] at ha' ⊢
        exact fun hh => ha' hh.symm
      have hmem' : d.any (fun p => p.1 == kr) = true := by
        simp only [List.any_cons, ha', Bool.false_or] at hmem
        exact hmem
      simp only [List.lookup, ha'']
      exact ih hmem'

theorem lookup_none_of_any_false (d : PyDict) (k : String)
    (h : d.any (fun p => p.1 == k) = false) :
    List.lookup k d = none := by
  induction d with
  | nil => rfl
  | cons a d ih =>
    simp only [List.any_cons, Bool.or_eq_false_iff] at h
    have hk : (k == a.1) = false := by
      simp only [beq_eq_false_iff_ne] at h ⊢
      exact fun hh => h.1 hh.symm
    simp only [List.lookup, hk]
    exact ih h.2

theorem lookup_append_of_none (d1 d2 : PyDict) (k : String)
    (h : List.lookup k d1 = none) :
    List.lookup k (d1 ++ d2) = List.lookup k d2 := by
  induction d1 with
  | nil => rfl
  | cons a d ih =>
    simp only [List.lookup] at h ⊢
    cases hk : (k == a.1) with
    | true => rw [hk] at h; cases h
    | false =>
      rw [hk] at h
      simp only [List.cons_append, List.lookup, hk]
      exact ih h

theorem lookup_append_of_some (d1 d2 : PyDict) (k : String) (w : Json)
    (h : List.lookup k d1 = some w) :
    List.lookup k (d1 ++ d2) = some w := by
  induction d1 with
  | nil => cases h
  | cons a d ih =>
    simp only [List.lookup] at h ⊢
    cases hk : (k == a.1) with
    | true => rw [hk] at h; simpa [List.cons_append, List.lookup, hk] using h
    | false =>
      rw [hk] at h
      simp only [List.cons_append, List.lookup, hk]
      exact ih h

theorem dictGet_dictInsert_self (d : PyDict) (k : String) (v : Json) :
    dictGet (dictInsert d k v) k = some v := by
  unfold dictGet dictInsert
  by_cases hany : (d.any (fun p => p.1 == k)) = true
  · rw [if_pos hany]
    exact lookup_replaceKey_self d k v hany
  · have hany' : (d.any (fun p => p.1 == k)) = false := by rwa [Bool.not_eq_true] at hany
    rw [if_neg (by rw [hany']; simp)]
    rw [lookup_append_of_none d [(k, v)] k (lookup_none_of_any_false d k hany')]
    simp [List.lookup]

theorem dictGet_dictInsert_ne (d : PyDict) (kr k : String) (v : Json)
    (h : kr ≠ k) :
    dictGet (dictInsert d kr v) k = dictGet d k := by
  have hk : (k == kr) = false := by
    simp only [beq_eq_false_iff_ne]
    exact fun hh => h hh.symm
  unfold dictGet dictInsert
  by_cases hany : (d.any (fun p => p.1 == kr)) = true
  · rw [if_pos hany]
    exact lookup_replaceKey d kr v k hk
  · have hany' : (d.any (fun p => p.1 == kr)) = false := by rwa [Bool.not_eq_true] at hany
    rw [if_neg (by rw [hany']; simp)]
    cases hl : List.lookup k d with
    | some w => exact lookup_append_of_some d [(kr, v)] k w hl
    | none =>
      rw [lookup_append_of_none d [(kr, v)] k hl]
      simp [List.lookup, hk]

theorem dictGet_dictUpdate_not_mem (e : PyDict) : ∀ (d : PyDict) (k : String),
    k ∉ e.map Prod.fst → dictGet (dictUpdate d e) k = dictGet d k := by
  induction e with
  | nil => intro d k _; rfl
  | cons a rest ih =>
    intro d k hk
    simp only [List.map_cons, List.mem_cons, not_or] at hk
    have hstep : dictUpdate d (a :: rest) = dictUpdate (dictInsert d a.1 a.2) rest := rfl
    rw [hstep, ih (dictInsert d a.1 a.2) k hk.2]
    exact dictGet_dictInsert_ne d a.1 k a.2 (fun hh => hk.1 hh.symm)

theorem dictGet_dictUpdate_override (e : PyDict) : ∀ (d : PyDict) (k : String) (w : Json),
    (e.map Prod.fst).Nodup → dictGet d k = some w →
    dictGet (dictUpdate d e) k = some ((dictGet e k).getD w) := by
  induction e with
  | nil =>
    intro d k w _ hd
    simpa [dictUpdate, dictGet, List.lookup] using hd
  | cons a rest ih =>
    intro d k w hnodup hd
    obtain ⟨k0, v⟩ := a
    simp only [List.map_cons, List.nodup_cons] at hnodup
    have hstep : dictUpdate d ((k0, v) :: rest) = dictUpdate (dictInsert d k0 v) rest := rfl
    rw [hstep]
    by_cases hk : k = k0
    · subst hk
      rw [dictGet_dictUpdate_not_mem rest (dictInsert d k v) k hnodup.1,
        dictGet_dictInsert_self d k v]
      simp [dictGet, List.lookup]
    · have hbeq : (k == k0) = false := by simpa using hk
      have hins : dictGet (dictInsert d k0 v) k = some w := by
        rw [dictGet_dictInsert_ne d k0 k v (fun hh => hk hh.symm)]
        exact hd
      rw [ih (dictInsert d k0 v) k w hnodup.2 hins]
      simp [dictGet, List.lookup, hbeq]

theorem dictUpdate_eq_append (e : PyDict) : ∀ (d : PyDict),
    ((d ++ e).map Prod.fst).Nodup → dictUpdate d e = d ++ e := by
  induction e with
  | nil => intro d _; simp [dictUpdate]
  | cons a rest ih =>
    intro d hnodup
    obtain ⟨k, v⟩ := a
    have hknotin : k ∉ d.map Prod.fst := by
      intro hmem
      simp only [List.map_append, List.nodup_append] at hnodup
      exact hnodup.2.2 hmem (by simp)
    have hany : d.any (fun p => p.1 == k) = false := by
      rw [List.any_eq_false]
      intro p hp
      simp only [Bool.not_eq_true, beq_eq_false_iff_ne]
      intro hk
      exact hknotin (List.mem_map.mpr ⟨p, hp, hk⟩)
    have hstep : dictUpdate d ((k, v) :: rest) = dictUpdate (dictInsert d k v) rest := rfl
    have hins : dictInsert d k v = d ++ [(k, v)] := by
      unfold dictInsert
      rw [if_neg (by simp [hany])]
    rw [hstep, hins, ih (d ++ [(k, v)]) (by simpa using hnodup)]
    simp

/-- C10: `_call_service` adds `entity_id` to the POST body only when it
is truthy — for the empty string (not just `None`) the body is exactly
the `data` dict with no `entity_id` key added — and when `entity_id` is
truthy, an `entity_id` key inside `data` overrides it
(`service_data.update(data)` runs after the insertion). -/
theorem claim_C10_entity_id_merge :
    (∀ (env : ApiEnv) (domain : String) (service : Json) (data : PyDict),
      (data.map Prod.fst).Nodup →
      (call_service env domain service (Json.str "") (Json.obj data)).2 =
        [ApiRequest.postService domain (pyStr service) data])
    ∧ (∀ (env : ApiEnv) (domain : String) (service entity_id : Json) (data : PyDict),
      pyTruthy entity_id = true →
      (data.map Prod.fst).Nodup →
      (call_service env domain service entity_id (Json.obj data)).2 =
        [ApiRequest.postService domain (pyStr service)
          (dictUpdate [("entity_id", entity_id)] data)]
      ∧ dictGet (dictUpdate [("entity_id", entity_id)] data) "entity_id" =
          some ((dictGet data "entity_id").getD entity_id)) := by
  constructor
  · intro env domain service data hnodup
    have hupd : dictUpdate [] data = data := by
      have h := dictUpdate_eq_append data [] (by simpa using hnodup)
      simpa using h
    unfold call_service
    dsimp only
    rw [if_neg (show ¬ (pyTruthy (Json.str "") = true) by decide)]
    show (match pyUpdate [] (Json.obj data) with
      | Except.error m => (resultErr m, [])
      | Except.ok sd =>
        match env (ApiRequest.postService domain (pyStr service) sd) with
        | HttpOutcome.exn m => (resultErr m, [ApiRequest.postService domain (pyStr service) sd])
        | HttpOutcome.resp status _ =>
          if status == 200 then
            ([("success", Json.bool true),
              ("message", Json.str s!"Called {domain}.{pyStr service}")],
             [ApiRequest.postService domain (pyStr service) sd])
          else (resultErr s!"HA returned {status}",
                [ApiRequest.postService domain (pyStr service) sd])).2 =
      [ApiRequest.postService domain (pyStr service) data]
    have hpu : pyUpdate [] (Json.obj data) = Except.ok data := by
      simp only [pyUpdate, hupd]
    rw [hpu]
    dsimp only
    cases env (ApiRequest.postService domain (pyStr service) data) with
    | exn m => rfl
    | resp s b =>
      dsimp only
      by_cases hs : (s == 200) = true
      · rw [if_pos hs]
      · rw [if_neg hs]
  · intro env domain service entity_id data htr hnodup
    constructor
    · unfold call_service
      dsimp only
      rw [if_pos htr]
      show (match pyUpdate [("entity_id", entity_id)] (Json.obj data) with
        | Except.error m => (resultErr m, [])
        | Except.ok sd =>
          match env (ApiRequest.postService domain (pyStr service) sd) with
          | HttpOutcome.exn m => (resultErr m, [ApiRequest.postService domain (pyStr service) sd])
          | HttpOutcome.resp status _ =>
            if status == 200 then
              ([("success", Json.bool true),
                ("message", Json.str s!"Called {domain}.{pyStr service}")],
               [ApiRequest.postService domain (pyStr service) sd])
            else (resultErr s!"HA returned {status}",
                  [ApiRequest.postService domain (pyStr service) sd])).2 =
        [ApiRequest.postService domain (pyStr service)
          (dictUpdate [("entity_id", entity_id)] data)]
      have hpu : pyUpdate [("entity_id", entity_id)] (Json.obj data) =
          Except.ok (dictUpdate [("entity_id", entity_id)] data) := rfl
      rw [hpu]
      dsimp only
      cases env (ApiRequest.postService domain (pyStr service)
          (dictUpdate [("entity_id", entity_id)] data)) with
      | exn m => rfl
      | resp s b =>
        dsimp only
        by_cases hs : (s == 200) = true
        · rw [if_pos hs]
        · rw [if_neg hs]
    · exact dictGet_dictUpdate_override data [("entity_id", entity_id)] "entity_id"
        entity_id hnodup rfl

/-- C10 witness: with `entity_id = ""` the body is exactly
`{"brightness": 80}`; with a truthy `entity_id` and a `data` that also
carries `entity_id`, the data value wins. -/
theorem claim_C10_entity_id_merge_witness :
    (call_service envExn "light" (Json.str "turn_on") (Json.str "")
       (Json.obj [("brightness", Json.num 80)])).2 =
      [ApiRequest.postService "light" "turn_on" [("brightness", Json.num 80)]]
    ∧ dictGet (dictUpdate [("entity_id", Json.str "light.k")]
         [("entity_id", Json.str "light.override")]) "entity_id" =
        some (Json.str "light.override") := by
  constructor
  · have h := claim_C10_entity_id_merge.1 envExn "light" (Json.str "turn_on")
      [("brightness", Json.num 80)] (by simp)
    exact h
  · have h := (claim_C10_entity_id_merge.2 envExn "light" (Json.str "turn_on")
      (Json.str "light.k") [("entity_id", Json.str "light.override")]
      (by decide) (by simp)).2
    rw [h]
    rfl
